import Mathlib

/-!
Verification development for the RIDE power-flow co-simulation adapter
(simulator_pflow_3.py): device sampler models (PhasorSim, SmartmeterSim,
ProberSim, SensorSim, ActuatorSim), disturbance event handling, and the
PFlowSim step/scheduling engine.

Embedding conventions:
* numpy complex numerics are abstracted as a `NumOps` record of external
  operations; theorems quantify over it, and a concrete integer-pair
  instance `intOps` is used for evaluation;
* the OpenDSS engine (SimDSS / opendssdirect) is an `Oracle` record: reads
  are abstract functions, mutations (tap, line impedance, loads, generators)
  update record fields, and `setLoads` counts synthetic-load applications;
* random draws (np.random.normal) are an explicit stream `noise : Nat → C`,
  one stream element per addNoise call;
* Python exceptions (UnboundLocalError, AttributeError, KeyError,
  IndexError) are modeled with `Except Err`;
* the mosaik PriorityQueue is modeled by its sorted multiset of entries:
  `pqPut` is an ordered insert and `pqDrain` is the queue[0]/get drain loop
  at the end of PFlowSim.step.
-/

namespace RIDE

/-- cktPhase parameter names (the CKTPhase enum members the code matches on,
lines 107-120 of simulator_pflow_3.py). -/
inductive CktPhase
  | PHASE_1 | PHASE_2 | PHASE_3 | PHASE_12 | PHASE_13 | PHASE_23 | PHASE_123
  deriving DecidableEq, Repr

/-- The list of single phases sampled for a cktPhase value (lines 107-120). -/
def CktPhase.phases : CktPhase → List CktPhase
  | .PHASE_1 => [.PHASE_1]
  | .PHASE_2 => [.PHASE_2]
  | .PHASE_3 => [.PHASE_3]
  | .PHASE_12 => [.PHASE_1, .PHASE_2]
  | .PHASE_13 => [.PHASE_1, .PHASE_3]
  | .PHASE_23 => [.PHASE_2, .PHASE_3]
  | .PHASE_123 => [.PHASE_1, .PHASE_2, .PHASE_3]

/-- Values delivered as actuator controls: Python None, the string literal
value used by mosaik to serialize None, or a number. -/
inductive PyVal
  | pynone
  | noneStr
  | num (z : ℤ)
  deriving DecidableEq, Repr

/-- Python runtime errors this embedding can surface. `badDispatch` stands
for the failures a kind/eid mismatch would cause in the dynamic dispatch
of PFlowSim.step (missing method or a None placed in the wake queue). -/
inductive Err
  | unboundLocal | attributeError | keyError | indexError | badDispatch
  deriving DecidableEq, Repr

/-- External numeric operations on complex measurement quantities (numpy):
abs, angle, addition, multiplication, conjugation, negation, real part. -/
structure NumOps (C S : Type) where
  cadd : C → C → C
  cmul : C → C → C
  cconj : C → C
  cneg : C → C
  creal : C → S
  cabs : C → S
  cangle : C → S

/-- The OpenDSS oracle state visible to this module. `read` models
SimDSS.getCktElementState returning (VComp, IComp); the remaining fields
model the mutable engine state touched by taps, disturbances and loads.
`loadsApplied` counts SimDSS.setLoads calls (the synthetic-load state). -/
structure Oracle (C S : Type) where
  read : String → String → CktPhase → C × C
  getVMagAnglePu : String → CktPhase → S × S
  getPQ : String → S × S
  trafoTap : String → PyVal
  loadsApplied : Nat
  lineR1 : String → ℚ
  lineX1 : String → ℚ
  loadKW : String → ℚ
  loadKvar : String → ℚ
  loadKV : String → ℚ
  loadVMinPU : String → ℚ
  loadVMaxPU : String → ℚ
  genKW : String → ℚ
  genKvar : String → ℚ

variable {C S : Type}

/-- SimDSS.setTrafoTap: record the tap value for the element. -/
def Oracle.setTrafoTap (o : Oracle C S) (elem : String) (v : PyVal) : Oracle C S :=
  { o with trafoTap := fun e => if e = elem then v else o.trafoTap e }

/-- SimDSS.setLoads: apply one synthetic load sample (abstracted as a counter
on the oracle's synthetic-load state). -/
def Oracle.setLoads (o : Oracle C S) : Oracle C S :=
  { o with loadsApplied := o.loadsApplied + 1 }

/-- self.time_diff_resolution = 1e-9, the sub-tick timestamp epsilon. -/
def timeDiffResolution : ℚ := 1 / 1000000000

/-- Phasor measurement payload: per-phase ((VMag, VAng), (IMag, IAng)). -/
structure PhasorVal (S : Type) where
  idt : String
  entries : List (CktPhase × (S × S) × (S × S))
  deriving DecidableEq, Repr

/-- Smartmeter measurement payload: per-phase (VMag, SP). -/
structure SmartmeterVal (S : Type) where
  idt : String
  entries : List (CktPhase × S × S)
  deriving DecidableEq, Repr

/-- Prober payload: a channel-selected scalar, or the raw tap value. -/
inductive ProberVal (S : Type)
  | scalar (x : S)
  | tap (v : PyVal)
  deriving DecidableEq, Repr

structure SensorSim (S : Type) where
  idt : String
  step_size : ℤ
  elem : String
  term : String
  ph : CktPhase
  verbose : ℤ
  priorValue : Option S
  priorTime : Option ℚ
  deriving DecidableEq, Repr

structure PhasorSim (S : Type) where
  idt : String
  cktElement : String
  cktTerminal : String
  cktPhase : CktPhase
  error : ℚ
  verbose : ℤ
  priorValue : Option (PhasorVal S)
  priorTime : Option ℚ
  step_size : ℤ
  deriving DecidableEq, Repr

structure SmartmeterSim (S : Type) where
  idt : String
  cktElement : String
  cktTerminal : String
  cktPhase : CktPhase
  error : ℚ
  verbose : ℤ
  priorValue : Option (SmartmeterVal S)
  priorTime : Option ℚ
  step_size : ℤ
  deriving DecidableEq, Repr

structure ProberSim (S : Type) where
  idt : String
  step_size : ℤ
  elem : String
  term : String
  ph : CktPhase
  verbose : ℤ
  priorValue : Option (ProberVal S)
  priorTime : Option ℚ
  deriving DecidableEq, Repr

structure ActuatorSim where
  eid : String
  step_size : ℤ
  elem : String
  term : String
  ph : CktPhase
  verbose : ℤ
  priorValue : PyVal
  priorTime : Option ℤ
  deriving DecidableEq, Repr

/-- SensorSim.updateValues (lines 336-359). The second component of the
result is the Python return value; -1 is the code's no-wake sentinel (the
spec's NONE). On the off-tick branch the verbose > 2 debug print references
the local variable val, which is only assigned on the on-tick branch, so
that call raises UnboundLocalError. No noise is applied on this path: the
scalar is derived directly from the raw oracle read. -/
def SensorSim.updateValues (ops : NumOps C S) (o : Oracle C S) (d : SensorSim S)
    (time : ℤ) : Except Err (SensorSim S × ℤ) :=
  if time % d.step_size = 0 then
    let VComp := (o.read d.elem d.term d.ph).1
    let val := ops.cabs VComp
    .ok ({ d with priorTime := some ((time : ℚ) + timeDiffResolution),
                  priorValue := some val }, time + d.step_size)
  else
    if 2 < d.verbose then .error .unboundLocal
    else .ok ({ d with priorTime := none, priorValue := none }, -1)

/-- PhasorSim.updateValues (lines 98-153). Each phase read consumes two
noise-stream draws (one complex draw for VComp, one for IComp), modeling the
two np.random.normal(0, error) pairs of addNoise. Off-tick with verbose > 2
raises UnboundLocalError on the print of the unassigned local val. The
returned Nat is the advanced noise-stream index. -/
def PhasorSim.updateValues (ops : NumOps C S) (o : Oracle C S) (noise : Nat → C)
    (n0 : Nat) (d : PhasorSim S) (time : ℤ) :
    Except Err (PhasorSim S × ℤ × Nat) :=
  if time % d.step_size = 0 then
    let phases := d.cktPhase.phases
    let entries := phases.enum.map (fun q =>
      let VComp := (o.read d.cktElement d.cktTerminal q.2).1
      let IComp := (o.read d.cktElement d.cktTerminal q.2).2
      let V := ops.cadd VComp (noise (n0 + 2 * q.1))
      let I := ops.cadd IComp (noise (n0 + 2 * q.1 + 1))
      (q.2, ((ops.cabs V, ops.cangle V), (ops.cabs I, ops.cangle I))))
    .ok ({ d with priorTime := some ((time : ℚ) + timeDiffResolution),
                  priorValue := some ⟨d.idt, entries⟩ },
         time + d.step_size, n0 + 2 * phases.length)
  else
    if 2 < d.verbose then .error .unboundLocal
    else .ok ({ d with priorTime := none, priorValue := none }, -1, n0)

/-- SmartmeterSim.updateValues (lines 193-252). VMag is derived from the
noised VComp and SP = (VComp * conj(-IComp)).real from the noised VComp and
IComp. Off-tick with verbose > 2 raises UnboundLocalError. -/
def SmartmeterSim.updateValues (ops : NumOps C S) (o : Oracle C S) (noise : Nat → C)
    (n0 : Nat) (d : SmartmeterSim S) (time : ℤ) :
    Except Err (SmartmeterSim S × ℤ × Nat) :=
  if time % d.step_size = 0 then
    let phases := d.cktPhase.phases
    let entries := phases.enum.map (fun q =>
      let VComp := (o.read d.cktElement d.cktTerminal q.2).1
      let IComp := (o.read d.cktElement d.cktTerminal q.2).2
      let V := ops.cadd VComp (noise (n0 + 2 * q.1))
      let I := ops.cadd IComp (noise (n0 + 2 * q.1 + 1))
      let VMag := ops.cabs V
      let SP := ops.creal (ops.cmul V (ops.cconj (ops.cneg I)))
      (q.2, VMag, SP))
    .ok ({ d with priorTime := some ((time : ℚ) + timeDiffResolution),
                  priorValue := some ⟨d.idt, entries⟩ },
         time + d.step_size, n0 + 2 * phases.length)
  else
    if 2 < d.verbose then .error .unboundLocal
    else .ok ({ d with priorTime := none, priorValue := none }, -1, n0)

/-- ProberSim.updateValues (lines 282-311). Returns no wake time (the Python
function returns None). The channel index cidx is parsed from the eid; an
unknown cidx leaves the local val unassigned (UnboundLocalError at the
priorValue assignment), a malformed eid raises IndexError, and the off-tick
branch with verbose > 2 raises UnboundLocalError at the debug print. The
prober timestamp has no epsilon added. -/
def ProberSim.updateValues (ops : NumOps C S) (o : Oracle C S) (d : ProberSim S)
    (time : ℤ) : Except Err (ProberSim S) :=
  if time % d.step_size = 0 then
    let parts := d.idt.splitOn "."
    match parts.get? 1, parts.get? 2 with
    | some cidx, some _didx =>
      let val? : Option (ProberVal S) :=
        if cidx = "0" then some (.scalar (ops.cabs (o.read d.elem d.term d.ph).1))
        else if cidx = "1" then some (.tap (o.trafoTap d.elem))
        else if cidx = "3" then some (.scalar (o.getVMagAnglePu d.elem d.ph).1)
        else if cidx = "2" then some (.scalar (o.getPQ d.elem).1)
        else none
      match val? with
      | none => .error .unboundLocal
      | some val =>
          .ok { d with priorTime := some (time : ℚ), priorValue := some val }
    | _, _ => .error .indexError
  else
    if 2 < d.verbose then .error .unboundLocal
    else .ok { d with priorTime := none, priorValue := none }

/-- ActuatorSim.getLastValue (lines 402-411): returns the stored pair and
destructively resets it so the same value is never delivered twice. -/
def ActuatorSim.getLastValue (a : ActuatorSim) : (PyVal × Option ℤ) × ActuatorSim :=
  ((a.priorValue, a.priorTime), { a with priorValue := .pynone, priorTime := none })

/-- ActuatorSim.setControl (lines 386-399). The verbose > 0 debug print
references self.action, an attribute that is never assigned (it only ever
appears in commented-out code), and the verbose > 2 print references
self.idt while the field is named eid: both raise AttributeError. With
verbose ≤ 0 the value is applied to the oracle tap iff it is neither 0 nor
None, and is stored unconditionally. -/
def ActuatorSim.setControl (a : ActuatorSim) (o : Oracle C S) (value : PyVal)
    (time : ℤ) : Except Err (ActuatorSim × Oracle C S) :=
  if 0 < a.verbose then .error .attributeError
  else
    let o := if value ≠ .num 0 ∧ value ≠ .pynone then o.setTrafoTap a.elem value else o
    let a := { a with priorTime := some time, priorValue := value }
    if 2 < a.verbose then .error .attributeError
    else .ok (a, o)

/-- Python set insertion into the active-event set (idempotent). -/
def setAdd (l : List String) (x : String) : List String :=
  if x ∈ l then l else l ++ [x]

/-- Python set discard from the active-event set. -/
def setDiscard (l : List String) (x : String) : List String :=
  l.filter (fun y => y ≠ x)

/-- event.startswith(pre). -/
def strStartsWith (s pre : String) : Bool := pre.toList.isPrefixOf s.toList

/-- PFlowSim.apply_fault (lines 561-573): only the hardcoded line
"6054-6110" is modified; any other target is reported and ignored. -/
def apply_fault (o : Oracle C S) (act : List String) (line_id : String) :
    Oracle C S × List String :=
  if line_id = "6054-6110" then
    ({ o with lineR1 := fun e => if e = line_id then 0.5 else o.lineR1 e,
              lineX1 := fun e => if e = line_id then 0.1 else o.lineX1 e },
     setAdd act "Fault_6054-6110")
  else (o, act)

/-- PFlowSim.remove_fault (lines 576-588). -/
def remove_fault (o : Oracle C S) (act : List String) (line_id : String) :
    Oracle C S × List String :=
  if line_id = "6054-6110" then
    ({ o with lineR1 := fun e => if e = line_id then 0.00931 else o.lineR1 e,
              lineX1 := fun e => if e = line_id then 0.00071 else o.lineX1 e },
     setDiscard act "Fault_6054-6110")
  else (o, act)

/-- PFlowSim.trip_generator (lines 591-595). -/
def trip_generator (o : Oracle C S) (act : List String) (gen_id : String) :
    Oracle C S × List String :=
  ({ o with genKW := fun e => if e = gen_id then 0 else o.genKW e,
            genKvar := fun e => if e = gen_id then 0 else o.genKvar e },
   setAdd act ("GeneratorTrip_" ++ gen_id))

/-- PFlowSim.fix_generator (lines 597-601). -/
def fix_generator (o : Oracle C S) (act : List String) (gen_id : String)
    (kw kvar : ℚ) : Oracle C S × List String :=
  ({ o with genKW := fun e => if e = gen_id then kw else o.genKW e,
            genKvar := fun e => if e = gen_id then kvar else o.genKvar e },
   setDiscard act ("GeneratorTrip_" ++ gen_id))

/-- PFlowSim.change_load (lines 604-617): only the hardcoded load "6110.1"
is modified. -/
def change_load (o : Oracle C S) (act : List String) (load_id : String) :
    Oracle C S × List String :=
  if load_id = "6110.1" then
    ({ o with loadKW := fun e => if e = load_id then 100 else o.loadKW e,
              loadKvar := fun e => if e = load_id then 50 else o.loadKvar e,
              loadKV := fun e => if e = load_id then 0.240 else o.loadKV e },
     setAdd act "LoadChange_6110.1")
  else (o, act)

/-- PFlowSim.restore_load (lines 620-635). -/
def restore_load (o : Oracle C S) (act : List String) (load_id : String) :
    Oracle C S × List String :=
  if load_id = "6110.1" then
    ({ o with loadKW := fun e => if e = load_id then 0 else o.loadKW e,
              loadKvar := fun e => if e = load_id then 0 else o.loadKvar e,
              loadKV := fun e => if e = load_id then 0.240 else o.loadKV e,
              loadVMinPU := fun e => if e = load_id then 0.9 else o.loadVMinPU e,
              loadVMaxPU := fun e => if e = load_id then 1.1 else o.loadVMaxPU e },
     setDiscard act "LoadChange_6110.1")
  else (o, act)

/-- The event-state flags returned by PFlowSim.get_event_state
(lines 638-649). -/
structure EventState where
  Normal : Bool
  Fault : Bool
  GeneratorTrip : Bool
  LoadChange : Bool
  deriving DecidableEq, Repr

/-- PFlowSim.get_event_state: derived, on-demand view of the active set. -/
def get_event_state (active_events : List String) : EventState where
  Normal := active_events.length == 0
  Fault := active_events.any (fun e => strStartsWith e "Fault_")
  GeneratorTrip := active_events.any (fun e => strStartsWith e "GeneratorTrip_")
  LoadChange := active_events.any (fun e => strStartsWith e "LoadChange_")

/-- The five device kinds owned by PFlowSim.instances. -/
inductive Instance (C S : Type)
  | sensor (d : SensorSim S)
  | phasor (d : PhasorSim S)
  | smartmeter (d : SmartmeterSim S)
  | prober (d : ProberSim S)
  | actuator (d : ActuatorSim)

/-- The effect functions that can appear in a scheduled event tuple. -/
inductive EventFunc
  | applyFault | removeFault | changeLoad | restoreLoad
  | tripGenerator | fixGenerator (kw kvar : ℚ)
  deriving DecidableEq, Repr

/-- One entry of PFlowSim.scheduled_events:
(evt_time, evt_func, evt_args, evt_type). -/
structure SchedEvent where
  time : ℤ
  func : EventFunc
  arg : String
  phase : String
  deriving DecidableEq, Repr

/-- Dispatch of evt_func(*evt_args) on the oracle and the active-event set. -/
def applyEventFunc : EventFunc → String → Oracle C S → List String →
    Oracle C S × List String
  | .applyFault, arg, o, act => apply_fault o act arg
  | .removeFault, arg, o, act => remove_fault o act arg
  | .changeLoad, arg, o, act => change_load o act arg
  | .restoreLoad, arg, o, act => restore_load o act arg
  | .tripGenerator, arg, o, act => trip_generator o act arg
  | .fixGenerator kw kvar, arg, o, act => fix_generator o act arg kw kvar

/-- Substring test over the character lists, modeling str.find(sub) > -1. -/
def strContainsSub (s sub : String) : Bool :=
  (List.range (s.toList.length + 1)).any fun i => sub.toList.isPrefixOf (s.toList.drop i)

/-- The eid name test of the sampler update loop (lines 726-728): note it
looks for "SmartMeter" with a capital M, matching the eids built by the
demo scenario, not the model name Smartmeter. -/
def isSamplerName (eid : String) : Bool :=
  strContainsSub eid "Sensor" || strContainsSub eid "Phasor" ||
    strContainsSub eid "SmartMeter"

/-- Ordered insert: PriorityQueue.put, with the queue modeled by its sorted
list of entries so that the head is always the minimum. -/
def pqPut (q : List ℤ) (x : ℤ) : List ℤ :=
  match q with
  | [] => [x]
  | y :: ys => if x ≤ y then x :: y :: ys else y :: pqPut ys x

/-- The pending-wake drain at the end of PFlowSim.step (lines 741-746):
read queue[0], pop while time >= queue[0], read queue[0] again. Every
queue[0] read on an empty queue is an IndexError, modeled as none. The
returned entry stays in the queue. -/
def pqDrain (time : ℤ) : List ℤ → Option (List ℤ × ℤ)
  | [] => none
  | t :: rest => if time ≥ t then pqDrain time rest else some (t :: rest, t)

/-- Python list.remove: drop the first occurrence. -/
def pyListRemove {α : Type} [DecidableEq α] : List α → α → List α
  | [], _ => []
  | x :: xs, e => if x = e then xs else x :: pyListRemove xs e

/-- The mutable PFlowSim state entering a step call. `loadGenPos` is the
read position of the LoadGenerator dataset; `rngIdx` the position in the
shared noise stream. -/
structure PFlowState (C S : Type) where
  time : ℤ
  prevStep : ℤ
  loadgenInterval : ℤ
  scheduledEvents : List SchedEvent
  activeEvents : List String
  oracle : Oracle C S
  instances : List (String × Instance C S)
  nextSteps : List ℤ
  loadGenPos : Nat
  rngIdx : Nat

/-- Observable actions of one step call, in execution order. -/
inductive Action
  | loadApplied (idx : Nat)
  | eventFired (e : SchedEvent)
  | controlSet (eid : String) (v : PyVal) (t : ℤ)
  | samplerUpdated (eid : String)
  | proberUpdated (eid : String)
  deriving DecidableEq, Repr

/-- loadGen_cnt (lines 676-679): 1 on the first ever call (prev_step < 0),
otherwise floor(time/interval) - floor(prev_step/interval). -/
def loadGenCount (prev time li : ℤ) : ℤ :=
  if prev < 0 then 1 else time.fdiv li - prev.fdiv li

/-- The load application loop body (lines 682-697): each iteration reads one
LoadGenerator sample and applies it to the oracle via setLoads. -/
def applyLoads (s : PFlowState C S) : Nat → PFlowState C S
  | 0 => s
  | n + 1 =>
      applyLoads { s with oracle := s.oracle.setLoads, loadGenPos := s.loadGenPos + 1 } n

/-- Stage 1 of step (lines 669-697): skip entirely when time equals the
previous step's time, otherwise apply loadGenCount synthetic load updates. -/
def loadStage (s : PFlowState C S) (time : ℤ) : PFlowState C S × List Action :=
  if time ≠ s.prevStep then
    let cnt := (loadGenCount s.prevStep time s.loadgenInterval).toNat
    (applyLoads s cnt, (List.range cnt).map .loadApplied)
  else (s, [])

/-- Stage 2 of step (lines 700-709): fire every scheduled event with
evt_time <= self.time in list order, then remove the fired entries. -/
def eventStage (s : PFlowState C S) : PFlowState C S × List Action :=
  let due := s.scheduledEvents.filter (fun e => decide (e.time ≤ s.time))
  let oa := due.foldl (fun p e => applyEventFunc e.func e.arg p.1 p.2)
    (s.oracle, s.activeEvents)
  ({ s with oracle := oa.1, activeEvents := oa.2,
            scheduledEvents := due.foldl pyListRemove s.scheduledEvents },
   due.map .eventFired)

/-- Replace the instance stored under a dict key. -/
def setInstance (l : List (String × Instance C S)) (eid : String)
    (inst : Instance C S) : List (String × Instance C S) :=
  l.map (fun p => if p.1 = eid then (eid, inst) else p)

/-- setControl dispatch on a stored instance: only an Actuator has the
method; any other kind is a dynamic-dispatch failure. -/
def applyControlTo (time : ℤ) (v : PyVal) (o : Oracle C S) :
    Instance C S → Except Err (Instance C S × Oracle C S)
  | .actuator a =>
    match a.setControl o v time with
    | .error e => .error e
    | .ok ao => .ok (.actuator ao.1, ao.2)
  | _ => .error .badDispatch

/-- One input row's value list (lines 715-720): values equal to None or the
string form of None are skipped; any other value is forwarded to
setControl(value_v, time) on the instance stored under eid. A missing
instance is a KeyError. -/
def controlRow (time : ℤ) (eid : String) :
    PFlowState C S → List (PyVal × ℤ) → Except Err (PFlowState C S × List Action)
  | s, [] => .ok (s, [])
  | s, (v, _vt) :: rest =>
    if v = PyVal.noneStr ∨ v = PyVal.pynone then controlRow time eid s rest
    else
      match s.instances.lookup eid with
      | none => .error .keyError
      | some inst =>
        match applyControlTo time v s.oracle inst with
        | .error e => .error e
        | .ok co =>
          match controlRow time eid
              { s with oracle := co.2,
                       instances := setInstance s.instances eid co.1 } rest with
          | .error e => .error e
          | .ok st => .ok (st.1, .controlSet eid v time :: st.2)

/-- Stage 3 of step (lines 712-720): process every input row. -/
def controlStage (time : ℤ) :
    PFlowState C S → List (String × List (PyVal × ℤ)) →
    Except Err (PFlowState C S × List Action)
  | s, [] => .ok (s, [])
  | s, (eid, vts) :: rest =>
    match controlRow time eid s vts with
    | .error e => .error e
    | .ok st =>
      match controlStage time st.1 rest with
      | .error e => .error e
      | .ok st2 => .ok (st2.1, st.2 ++ st2.2)

/-- updateValues dispatch inside the sampler loop. A Prober or Actuator
instance whose eid matches a sampler name would enqueue None or lack the
method in Python; both are modeled as badDispatch. -/
def instUpdate (ops : NumOps C S) (noise : Nat → C) (time : ℤ) (n0 : Nat)
    (o : Oracle C S) : Instance C S → Except Err (Instance C S × ℤ × Nat)
  | .sensor d =>
    match d.updateValues ops o time with
    | .error e => .error e
    | .ok dr => .ok (.sensor dr.1, dr.2, n0)
  | .phasor d =>
    match d.updateValues ops o noise n0 time with
    | .error e => .error e
    | .ok dr => .ok (.phasor dr.1, dr.2.1, dr.2.2)
  | .smartmeter d =>
    match d.updateValues ops o noise n0 time with
    | .error e => .error e
    | .ok dr => .ok (.smartmeter dr.1, dr.2.1, dr.2.2)
  | .prober _ => .error .badDispatch
  | .actuator _ => .error .badDispatch

/-- Stage 4 of step (lines 725-731): update every instance whose eid names a
sampler, collecting each return value different from -1 into the
pending-wake queue. -/
def samplerStage (ops : NumOps C S) (noise : Nat → C) (time : ℤ) :
    PFlowState C S → List (String × Instance C S) →
    Except Err (PFlowState C S × List Action)
  | s, [] => .ok (s, [])
  | s, (eid, inst) :: rest =>
    if isSamplerName eid then
      match instUpdate ops noise time s.rngIdx s.oracle inst with
      | .error e => .error e
      | .ok ir =>
        match samplerStage ops noise time
            { s with instances := setInstance s.instances eid ir.1,
                     rngIdx := ir.2.2,
                     nextSteps := if ir.2.1 ≠ -1 then pqPut s.nextSteps ir.2.1
                                  else s.nextSteps } rest with
        | .error e => .error e
        | .ok st => .ok (st.1, .samplerUpdated eid :: st.2)
    else samplerStage ops noise time s rest

/-- updateValues dispatch inside the prober loop: a Prober instance runs its
own updateValues (which returns no wake time and consumes no noise); a
sampler instance caught by the name test is updated with its return value
discarded, exactly as the Python loop would do; an Actuator lacks the
method. -/
def proberUpdateInst (ops : NumOps C S) (noise : Nat → C) (time : ℤ) (n0 : Nat)
    (o : Oracle C S) : Instance C S → Except Err (Instance C S × Nat)
  | .prober d =>
    match d.updateValues ops o time with
    | .error e => .error e
    | .ok dr => .ok (.prober dr, n0)
  | other =>
    match instUpdate ops noise time n0 o other with
    | .error e => .error e
    | .ok ir => .ok (ir.1, ir.2.2)

/-- Stage 5 of step (lines 736-738): update every instance whose eid
contains "Prober"; return values are ignored, so probers never contribute a
wake time. -/
def proberStage (ops : NumOps C S) (noise : Nat → C) (time : ℤ) :
    PFlowState C S → List (String × Instance C S) →
    Except Err (PFlowState C S × List Action)
  | s, [] => .ok (s, [])
  | s, (eid, inst) :: rest =>
    if strContainsSub eid "Prober" then
      match proberUpdateInst ops noise time s.rngIdx s.oracle inst with
      | .error e => .error e
      | .ok ir =>
        match proberStage ops noise time
            { s with instances := setInstance s.instances eid ir.1,
                     rngIdx := ir.2 } rest with
        | .error e => .error e
        | .ok st => .ok (st.1, .proberUpdated eid :: st.2)
    else proberStage ops noise time s rest

/-- Everything PFlowSim.step does before the final pending-wake drain
(lines 655-738), with its trace of observable actions. -/
def stepPre (ops : NumOps C S) (noise : Nat → C) (s0 : PFlowState C S)
    (time : ℤ) (inputs : List (String × List (PyVal × ℤ))) :
    Except Err (PFlowState C S × List Action) :=
  let s1 := { s0 with prevStep := s0.time, time := time }
  let l := loadStage s1 time
  let e := eventStage l.1
  match controlStage time e.1 inputs with
  | .error err => .error err
  | .ok c =>
    match samplerStage ops noise time c.1 c.1.instances with
    | .error err => .error err
    | .ok u =>
      match proberStage ops noise time u.1 u.1.instances with
      | .error err => .error err
      | .ok p => .ok (p.1, l.2 ++ e.2 ++ c.2 ++ u.2 ++ p.2)

/-- PFlowSim.step (lines 655-754): run the five stages, then drain the
pending-wake queue of all entries <= time and return the smallest remaining
entry. max_advance is only printed by the code and is unused. -/
def PFlowSim.step (ops : NumOps C S) (noise : Nat → C) (s0 : PFlowState C S)
    (time : ℤ) (inputs : List (String × List (PyVal × ℤ))) (maxAdvance : ℤ) :
    Except Err (PFlowState C S × ℤ × List Action) :=
  let _ := maxAdvance
  match stepPre ops noise s0 time inputs with
  | .error err => .error err
  | .ok p =>
    match pqDrain time p.1.nextSteps with
    | none => .error .indexError
    | some qr => .ok ({ p.1 with nextSteps := qr.1 }, qr.2, p.2)

/-- The pending-wake queue contents at the drain point of a step call. -/
def preDrainQueue (ops : NumOps C S) (noise : Nat → C) (s0 : PFlowState C S)
    (time : ℤ) (inputs : List (String × List (PyVal × ℤ))) : Option (List ℤ) :=
  (stepPre ops noise s0 time inputs).toOption.map (fun p => p.1.nextSteps)

/-- The next wake time returned by a step call, when it does not raise. -/
def stepNext (ops : NumOps C S) (noise : Nat → C) (s0 : PFlowState C S)
    (time : ℤ) (inputs : List (String × List (PyVal × ℤ))) (maxAdvance : ℤ) :
    Option ℤ :=
  (PFlowSim.step ops noise s0 time inputs maxAdvance).toOption.map (fun p => p.2.1)

/-- The trace of a step call, when it does not raise. -/
def stepTrace (ops : NumOps C S) (noise : Nat → C) (s0 : PFlowState C S)
    (time : ℤ) (inputs : List (String × List (PyVal × ℤ))) (maxAdvance : ℤ) :
    Option (List Action) :=
  (PFlowSim.step ops noise s0 time inputs maxAdvance).toOption.map (fun p => p.2.2)

/-- The oracle's synthetic-load counter after a step call. -/
def stepLoadsApplied (ops : NumOps C S) (noise : Nat → C) (s0 : PFlowState C S)
    (time : ℤ) (inputs : List (String × List (PyVal × ℤ))) (maxAdvance : ℤ) :
    Option Nat :=
  (PFlowSim.step ops noise s0 time inputs maxAdvance).toOption.map
    (fun p => p.1.oracle.loadsApplied)

/-- The scheduled disturbance events fired during a step, in firing order. -/
def firedOf (tr : List Action) : List SchedEvent :=
  tr.filterMap (fun a => match a with | .eventFired e => some e | _ => none)

/-- The setControl applications of a step, in application order. -/
def controlsOf (tr : List Action) : List (String × PyVal × ℤ) :=
  tr.filterMap (fun a => match a with
    | .controlSet eid v t => some (eid, v, t)
    | _ => none)

/-- The actuator inputs of a step that carry a present, non-null value, each
paired with the step time it is applied at. -/
def nonNullControls (time : ℤ) (inputs : List (String × List (PyVal × ℤ))) :
    List (String × PyVal × ℤ) :=
  inputs.flatMap (fun row =>
    (row.2.filter (fun vt => ¬(vt.1 = PyVal.noneStr ∨ vt.1 = PyVal.pynone))).map
      (fun vt => (row.1, vt.1, time)))

/-!
Concrete fixtures used to evaluate the embedding on explicit inputs.
-/

/-- Concrete integer-pair instance of the external numerics: complex
quantities are (re, im) pairs with exact arithmetic; cabs is the squared
magnitude and cangle the imaginary part, executable stand-ins that preserve
the dataflow structure of np.abs / np.angle. -/
def intOps : NumOps (ℤ × ℤ) ℤ where
  cadd a b := (a.1 + b.1, a.2 + b.2)
  cmul a b := (a.1 * b.1 - a.2 * b.2, a.1 * b.2 + a.2 * b.1)
  cconj a := (a.1, -a.2)
  cneg a := (-a.1, -a.2)
  creal a := a.1
  cabs a := a.1 * a.1 + a.2 * a.2
  cangle a := a.2

/-- A concrete oracle with a fixed electrical state. -/
def cOracle : Oracle (ℤ × ℤ) ℤ where
  read := fun _ _ _ => ((3, 4), (2, 1))
  getVMagAnglePu := fun _ _ => (7, 0)
  getPQ := fun _ => (9, 2)
  trafoTap := fun _ => .num 0
  loadsApplied := 0
  lineR1 := fun _ => 0.00931
  lineX1 := fun _ => 0.00071
  loadKW := fun _ => 0
  loadKvar := fun _ => 0
  loadKV := fun _ => 0.240
  loadVMinPU := fun _ => 0.9
  loadVMaxPU := fun _ => 1.1
  genKW := fun _ => 0
  genKvar := fun _ => 0

/-- A concrete noise stream whose draws are all (1, 1), i.e. nonzero. -/
def cNoise : Nat → ℤ × ℤ := fun _ => (1, 1)

def cSensor : SensorSim ℤ :=
  { idt := "Sensor_1", step_size := 5, elem := "671", term := "SNDBUS",
    ph := .PHASE_1, verbose := 0, priorValue := none, priorTime := none }

def cSensorV3 : SensorSim ℤ := { cSensor with verbose := 3 }

def cPhasor : PhasorSim ℤ :=
  { idt := "Phasor_1", cktElement := "650", cktTerminal := "SNDBUS",
    cktPhase := .PHASE_12, error := 1, verbose := 0, priorValue := none,
    priorTime := none, step_size := 5 }

def cSmartmeter : SmartmeterSim ℤ :=
  { idt := "SmartMeter_1", cktElement := "652", cktTerminal := "RCVBUS",
    cktPhase := .PHASE_1, error := 1, verbose := 0, priorValue := none,
    priorTime := none, step_size := 5 }

def cActuator : ActuatorSim :=
  { eid := "Actuator_1", step_size := 5, elem := "REG1", term := "SNDBUS",
    ph := .PHASE_1, verbose := 0, priorValue := .pynone, priorTime := none }

def cActuatorV1 : ActuatorSim := { cActuator with verbose := 1 }

/-- A concrete engine state before its first step call: one sensor, one
scheduled fault event at time 0, load interval 1, initial time -1. -/
def cState : PFlowState (ℤ × ℤ) ℤ where
  time := -1
  prevStep := -1
  loadgenInterval := 1
  scheduledEvents := [⟨0, .applyFault, "6054-6110", "start"⟩]
  activeEvents := []
  oracle := cOracle
  instances := [("Sensor_1", .sensor cSensor)]
  nextSteps := []
  loadGenPos := 0
  rngIdx := 0

/-- A concrete mid-run state: previous time 2, load interval 2, a pending
wake entry at 100 and no scheduled events. -/
def cState2 : PFlowState (ℤ × ℤ) ℤ :=
  { cState with
    time := 2
    loadgenInterval := 2
    scheduledEvents := []
    nextSteps := [100] }

/-- A concrete state for the duplicate-time step: previous time 2, one
sensor, one actuator, one due scheduled event, a pending wake at 100. -/
def cState3 : PFlowState (ℤ × ℤ) ℤ :=
  { cState with
    time := 2
    instances := [("Sensor_1", .sensor cSensor), ("Actuator_1", .actuator cActuator)]
    nextSteps := [100] }

/-- Concrete actuator inputs: one non-null value and one null value. -/
def cInputs : List (String × List (PyVal × ℤ)) :=
  [("Actuator_1", [(.num 3, 1), (.pynone, 1)])]

/-!
Claim C2.
-/

/-- Claim C2: for a sampling device (Sensor, Phasor, Smartmeter cited by the
claim) with sampling period p and any time t — under the debug-verbosity
precondition verbose ≤ 2 of claim C10, without which the off-tick branch
raises — updateValues(t) returns the no-wake sentinel -1 (the spec's NONE)
and clears the stored last value and last timestamp whenever t mod p ≠ 0,
and returns t + p as the next wake time whenever t mod p = 0. -/
theorem sampler_update_offtick_clears_ontick_period
    (ops : NumOps C S) (o : Oracle C S) (noise : Nat → C) (n0 : Nat)
    (ds : SensorSim S) (dp : PhasorSim S) (dm : SmartmeterSim S) (t : ℤ)
    (hs : ds.verbose ≤ 2) (hp : dp.verbose ≤ 2) (hm : dm.verbose ≤ 2) :
    (t % ds.step_size ≠ 0 →
      ds.updateValues ops o t =
        .ok ({ ds with priorValue := none, priorTime := none }, -1)) ∧
    (t % ds.step_size = 0 →
      ∃ d', ds.updateValues ops o t = .ok (d', t + ds.step_size)) ∧
    (t % dp.step_size ≠ 0 →
      dp.updateValues ops o noise n0 t =
        .ok ({ dp with priorValue := none, priorTime := none }, -1, n0)) ∧
    (t % dp.step_size = 0 →
      ∃ d' n', dp.updateValues ops o noise n0 t = .ok (d', t + dp.step_size, n')) ∧
    (t % dm.step_size ≠ 0 →
      dm.updateValues ops o noise n0 t =
        .ok ({ dm with priorValue := none, priorTime := none }, -1, n0)) ∧
    (t % dm.step_size = 0 →
      ∃ d' n', dm.updateValues ops o noise n0 t = .ok (d', t + dm.step_size, n')) := by
  refine ⟨fun h => ?_, fun h => ?_, fun h => ?_, fun h => ?_, fun h => ?_, fun h => ?_⟩
  · rw [SensorSim.updateValues, if_neg h, if_neg (by omega)]
  · exact ⟨_, by rw [SensorSim.updateValues, if_pos h]⟩
  · rw [PhasorSim.updateValues, if_neg h, if_neg (by omega)]
  · exact ⟨_, _, by rw [PhasorSim.updateValues, if_pos h]⟩
  · rw [SmartmeterSim.updateValues, if_neg h, if_neg (by omega)]
  · exact ⟨_, _, by rw [SmartmeterSim.updateValues, if_pos h]⟩

/-- Witness for claim C2 at a concrete off-tick input (t = 3, period 5):
the three devices clear their stored sample and return -1. -/
theorem sampler_update_c2_witness :
    cSensor.updateValues intOps cOracle 3 =
      .ok ({ cSensor with priorValue := none, priorTime := none }, -1) ∧
    cPhasor.updateValues intOps cOracle cNoise 0 3 =
      .ok ({ cPhasor with priorValue := none, priorTime := none }, -1, 0) := by
  have h := sampler_update_offtick_clears_ontick_period intOps cOracle cNoise 0
    cSensor cPhasor cSmartmeter 3 (by decide) (by decide) (by decide)
  exact ⟨h.1 (by decide), h.2.2.1 (by decide)⟩

/-!
Claim C4.
-/

/-- Modelled from the spec sentence behind claim C4: perturb one oracle read
with the NoiseModel, then derive magnitude and angle for the phasor phase. -/
def specNoisyPhasorEntry (ops : NumOps C S) (nV nI : C) (read : C × C) :
    (S × S) × (S × S) :=
  let V := ops.cadd read.1 nV
  let I := ops.cadd read.2 nI
  ((ops.cabs V, ops.cangle V), (ops.cabs I, ops.cangle I))

/-- Modelled from the spec sentence behind claim C4: perturb one oracle read
with the NoiseModel, then derive magnitude and real power for the meter. -/
def specNoisySmartEntry (ops : NumOps C S) (nV nI : C) (read : C × C) : S × S :=
  let V := ops.cadd read.1 nV
  let I := ops.cadd read.2 nI
  (ops.cabs V, ops.creal (ops.cmul V (ops.cconj (ops.cneg I))))

/-- Counterexample to claim C4 as stated: the Sensor kind does not perturb
the oracle read before deriving its payload scalar. At the concrete on-tick
input below the stored value is the derivation of the raw read (25 under
intOps), not the derivation of the noise-perturbed read (41 under the
constant nonzero draw (1,1)), so the claim fails for the Sensor kind. -/
theorem sensor_ignores_noise_counterexample :
    (SensorSim.updateValues intOps cOracle cSensor 0).toOption.map
      (fun r => r.1.priorValue) = some (some 25) ∧
    intOps.cabs (intOps.cadd ((cOracle.read "671" "SNDBUS" .PHASE_1).1) (cNoise 0)) = 41 ∧
    (25 : ℤ) ≠ 41 := by
  refine ⟨by decide, by decide, by decide⟩

/-- Claim C4 (amended): on an on-tick update, the Phasor and SmartMeter
kinds perturb each complex quantity read from the oracle with the NoiseModel
draws before deriving and storing the payload entries, while the Sensor kind
derives its payload scalar directly from the raw, unperturbed oracle read. -/
theorem noise_before_derivation_amended
    (ops : NumOps C S) (o : Oracle C S) (noise : Nat → C) (n0 : Nat)
    (ds : SensorSim S) (dp : PhasorSim S) (dm : SmartmeterSim S) (t : ℤ)
    (hts : t % ds.step_size = 0) (htp : t % dp.step_size = 0)
    (htm : t % dm.step_size = 0) :
    (∃ d', ds.updateValues ops o t = .ok (d', t + ds.step_size) ∧
      d'.priorValue = some (ops.cabs ((o.read ds.elem ds.term ds.ph).1))) ∧
    (∃ d' n', dp.updateValues ops o noise n0 t = .ok (d', t + dp.step_size, n') ∧
      d'.priorValue = some ⟨dp.idt, dp.cktPhase.phases.enum.map (fun q =>
        (q.2, specNoisyPhasorEntry ops (noise (n0 + 2 * q.1)) (noise (n0 + 2 * q.1 + 1))
          (o.read dp.cktElement dp.cktTerminal q.2)))⟩) ∧
    (∃ d' n', dm.updateValues ops o noise n0 t = .ok (d', t + dm.step_size, n') ∧
      d'.priorValue = some ⟨dm.idt, dm.cktPhase.phases.enum.map (fun q =>
        (q.2, specNoisySmartEntry ops (noise (n0 + 2 * q.1)) (noise (n0 + 2 * q.1 + 1))
          (o.read dm.cktElement dm.cktTerminal q.2)))⟩) := by
  refine ⟨⟨_, by rw [SensorSim.updateValues, if_pos hts], rfl⟩,
          ⟨_, _, by rw [PhasorSim.updateValues, if_pos htp], rfl⟩,
          ⟨_, _, by rw [SmartmeterSim.updateValues, if_pos htm], rfl⟩⟩

/-- Witness for the amended claim C4 at a concrete on-tick input: the Sensor
payload is derived from the raw read. -/
theorem noise_before_derivation_witness :
    ∃ d', SensorSim.updateValues intOps cOracle cSensor 0 = .ok (d', 0 + cSensor.step_size) ∧
      d'.priorValue = some (intOps.cabs ((cOracle.read cSensor.elem cSensor.term cSensor.ph).1)) :=
  (noise_before_derivation_amended intOps cOracle cNoise 0 cSensor cPhasor
    cSmartmeter 0 (by decide) (by decide) (by decide)).1

/-!
Claim C6.
-/

/-- Claim C6: getLastValue returns the currently stored (value, time) pair
and resets the stored pair to the absent pair; consequently two consecutive
calls with no intervening setControl return the stored pair the first time
and (absent, absent) the second time. -/
theorem actuator_getLastValue_at_most_once (a : ActuatorSim) :
    a.getLastValue.1 = (a.priorValue, a.priorTime) ∧
    a.getLastValue.2.priorValue = .pynone ∧
    a.getLastValue.2.priorTime = none ∧
    a.getLastValue.2.getLastValue.1 = (.pynone, none) :=
  ⟨rfl, rfl, rfl, rfl⟩

/-!
Claim C7.
-/

/-- Counterexample to claim C7 as stated: setControl does not always store
the pair. With verbosity 1 the debug print references the never-assigned
attribute self.action and raises AttributeError before storing or applying
anything, so at this concrete input no pair is stored. -/
theorem setControl_verbose_counterexample :
    cActuatorV1.setControl (C := ℤ × ℤ) (S := ℤ) cOracle (.num 5) 3 =
      .error .attributeError := rfl

/-- Claim C7 (amended): provided the actuator's verbosity is ≤ 0 (otherwise
the debug print of the missing self.action attribute raises AttributeError
first), setControl(value, time) always stores (value, time) regardless of
the value, and mutates the oracle's transformer tap iff the value is present
(not None) and non-zero; when the value is absent or zero the oracle is left
unchanged by the call. -/
theorem setControl_stores_and_taps_amended (a : ActuatorSim) (o : Oracle C S)
    (v : PyVal) (t : ℤ) (hv : a.verbose ≤ 0) :
    a.setControl o v t =
      .ok ({ a with priorValue := v, priorTime := some t },
        if v ≠ .num 0 ∧ v ≠ .pynone then o.setTrafoTap a.elem v else o) := by
  rw [ActuatorSim.setControl, if_neg (by omega)]
  simp only [if_neg (show ¬(2 < a.verbose) by omega)]

/-- Witness for the amended claim C7: with verbosity 0, a non-zero control
value of 2 at time 7 is stored and applied to the oracle tap. -/
theorem setControl_stores_and_taps_witness :
    cActuator.verbose ≤ 0 ∧
    cActuator.setControl cOracle (.num 2) 7 =
      .ok ({ cActuator with priorValue := .num 2, priorTime := some 7 },
        if PyVal.num 2 ≠ .num 0 ∧ PyVal.num 2 ≠ .pynone then
          cOracle.setTrafoTap cActuator.elem (.num 2) else cOracle) :=
  ⟨by decide, setControl_stores_and_taps_amended cActuator cOracle (.num 2) 7 (by decide)⟩

/-!
Claim C9.
-/

/-- Claim C9: Normal holds iff the active-event set is empty, and each of
Fault, GeneratorTrip, LoadChange holds iff some active label starts with the
corresponding prefix; moreover, after a paired (start, end) disturbance has
fully fired from a quiescent state the active set is empty again and Normal
is true (shown for both menu pairs: line fault and load change). -/
theorem event_state_flags_characterization (active : List String) (o : Oracle C S) :
    ((get_event_state active).Normal = true ↔ active = []) ∧
    ((get_event_state active).Fault = true ↔
      ∃ l ∈ active, strStartsWith l "Fault_" = true) ∧
    ((get_event_state active).GeneratorTrip = true ↔
      ∃ l ∈ active, strStartsWith l "GeneratorTrip_" = true) ∧
    ((get_event_state active).LoadChange = true ↔
      ∃ l ∈ active, strStartsWith l "LoadChange_" = true) ∧
    ((remove_fault (apply_fault o [] "6054-6110").1
        (apply_fault o [] "6054-6110").2 "6054-6110").2 = [] ∧
      (get_event_state (remove_fault (apply_fault o [] "6054-6110").1
        (apply_fault o [] "6054-6110").2 "6054-6110").2).Normal = true) ∧
    ((restore_load (change_load o [] "6110.1").1
        (change_load o [] "6110.1").2 "6110.1").2 = [] ∧
      (get_event_state (restore_load (change_load o [] "6110.1").1
        (change_load o [] "6110.1").2 "6110.1").2).Normal = true) := by
  refine ⟨?_, ?_, ?_, ?_, ⟨?_, ?_⟩, ⟨?_, ?_⟩⟩
  · simp [get_event_state, List.length_eq_zero]
  · simp [get_event_state, List.any_eq_true]
  · simp [get_event_state, List.any_eq_true]
  · simp [get_event_state, List.any_eq_true]
  · rfl
  · rfl
  · rfl
  · rfl

/-!
Claim C10.
-/

/-- Claim C10: for each sampler kind (Sensor, Phasor, SmartMeter, Prober),
an off-tick updateValues call with verbose > 2 reaches a debug print of the
local variable val, which is assigned only on the on-tick branch, and raises
UnboundLocalError; with verbose ≤ 2 the Sensor, Phasor and SmartMeter
updates never raise and the Prober off-tick update never raises, so
updateValues is total only under the precondition verbose ≤ 2. -/
theorem updateValues_unbound_local_on_verbose
    (ops : NumOps C S) (o : Oracle C S) (noise : Nat → C) (n0 : Nat)
    (ds : SensorSim S) (dp : PhasorSim S) (dm : SmartmeterSim S)
    (dr : ProberSim S) (t : ℤ) :
    (t % ds.step_size ≠ 0 → 2 < ds.verbose →
      ds.updateValues ops o t = .error .unboundLocal) ∧
    (t % dp.step_size ≠ 0 → 2 < dp.verbose →
      dp.updateValues ops o noise n0 t = .error .unboundLocal) ∧
    (t % dm.step_size ≠ 0 → 2 < dm.verbose →
      dm.updateValues ops o noise n0 t = .error .unboundLocal) ∧
    (t % dr.step_size ≠ 0 → 2 < dr.verbose →
      dr.updateValues ops o t = .error .unboundLocal) ∧
    (ds.verbose ≤ 2 → ∃ r, ds.updateValues ops o t = .ok r) ∧
    (dp.verbose ≤ 2 → ∃ r, dp.updateValues ops o noise n0 t = .ok r) ∧
    (dm.verbose ≤ 2 → ∃ r, dm.updateValues ops o noise n0 t = .ok r) ∧
    (dr.verbose ≤ 2 → t % dr.step_size ≠ 0 → ∃ r, dr.updateValues ops o t = .ok r) := by
  refine ⟨fun h hv => ?_, fun h hv => ?_, fun h hv => ?_, fun h hv => ?_,
          fun hv => ?_, fun hv => ?_, fun hv => ?_, fun hv h => ?_⟩
  · rw [SensorSim.updateValues, if_neg h, if_pos hv]
  · rw [PhasorSim.updateValues, if_neg h, if_pos hv]
  · rw [SmartmeterSim.updateValues, if_neg h, if_pos hv]
  · rw [ProberSim.updateValues, if_neg h, if_pos hv]
  · by_cases h : t % ds.step_size = 0
    · exact ⟨_, by rw [SensorSim.updateValues, if_pos h]⟩
    · exact ⟨_, by rw [SensorSim.updateValues, if_neg h, if_neg (by omega)]⟩
  · by_cases h : t % dp.step_size = 0
    · exact ⟨_, by rw [PhasorSim.updateValues, if_pos h]⟩
    · exact ⟨_, by rw [PhasorSim.updateValues, if_neg h, if_neg (by omega)]⟩
  · by_cases h : t % dm.step_size = 0
    · exact ⟨_, by rw [SmartmeterSim.updateValues, if_pos h]⟩
    · exact ⟨_, by rw [SmartmeterSim.updateValues, if_neg h, if_neg (by omega)]⟩
  · exact ⟨_, by rw [ProberSim.updateValues, if_neg h, if_neg (by omega)]⟩

/-- Witness for claim C10: a Sensor with verbosity 3 raises on the off-tick
call at t = 1 (1 mod 5 ≠ 0). -/
theorem updateValues_unbound_local_witness :
    cSensorV3.updateValues intOps cOracle 1 = .error .unboundLocal :=
  (updateValues_unbound_local_on_verbose intOps cOracle cNoise 0 cSensorV3
    cPhasor cSmartmeter
    { idt := "Prober_0.0.1", step_size := 5, elem := "671", term := "SNDBUS",
      ph := .PHASE_1, verbose := 0, priorValue := none, priorTime := none }
    1).1 (by decide) (by decide)

/-!
Helper lemmas about the queue, the event fold, and the step stages.
-/

/-- The sampling period of an instance, when its kind is one the sampler
loop of step updates. -/
def samplerPeriod : Instance C S → Option ℤ
  | .sensor d => some d.step_size
  | .phasor d => some d.step_size
  | .smartmeter d => some d.step_size
  | .prober _ => none
  | .actuator _ => none

theorem mem_pqPut : ∀ (q : List ℤ) (x y : ℤ), y ∈ pqPut q x ↔ y = x ∨ y ∈ q
  | [], x, y => by simp [pqPut]
  | z :: zs, x, y => by
    rw [pqPut]
    split
    · simp [or_comm, List.mem_cons, or_left_comm]
    · simp only [List.mem_cons, mem_pqPut zs x y]
      tauto

theorem pqDrain_of_future : ∀ (q : List ℤ) (time : ℤ), (∃ x ∈ q, time < x) →
    ∃ q' r, pqDrain time q = some (q', r) ∧ time < r
  | [], _, h => absurd h (by simp)
  | t :: rest, time, h => by
    rw [pqDrain]
    by_cases ht : time ≥ t
    · rw [if_pos ht]
      refine pqDrain_of_future rest time ?_
      obtain ⟨x, hx, hlt⟩ := h
      rcases List.mem_cons.mp hx with rfl | hx
      · omega
      · exact ⟨x, hx, hlt⟩
    · rw [if_neg ht]
      exact ⟨_, _, rfl, by omega⟩

theorem applyEventFunc_loadsApplied (f : EventFunc) (arg : String)
    (o : Oracle C S) (act : List String) :
    (applyEventFunc f arg o act).1.loadsApplied = o.loadsApplied := by
  cases f <;>
    simp only [applyEventFunc, apply_fault, remove_fault, change_load,
      restore_load, trip_generator, fix_generator] <;>
    first
      | rfl
      | (split <;> rfl)

theorem eventsFold_loadsApplied :
    ∀ (l : List SchedEvent) (p : Oracle C S × List String),
    (l.foldl (fun p e => applyEventFunc e.func e.arg p.1 p.2) p).1.loadsApplied
      = p.1.loadsApplied
  | [], _ => rfl
  | e :: rest, p => by
    rw [List.foldl_cons, eventsFold_loadsApplied rest, applyEventFunc_loadsApplied]

theorem eventStage_loadsApplied (s : PFlowState C S) :
    (eventStage s).1.oracle.loadsApplied = s.oracle.loadsApplied := by
  simp only [eventStage]
  exact eventsFold_loadsApplied _ _

theorem eventStage_instances (s : PFlowState C S) :
    (eventStage s).1.instances = s.instances := rfl

theorem eventStage_nextSteps (s : PFlowState C S) :
    (eventStage s).1.nextSteps = s.nextSteps := rfl

theorem eventStage_rngIdx (s : PFlowState C S) :
    (eventStage s).1.rngIdx = s.rngIdx := rfl

theorem eventStage_trace (s : PFlowState C S) :
    (eventStage s).2 =
      (s.scheduledEvents.filter (fun e => decide (e.time ≤ s.time))).map
        .eventFired := rfl

theorem applyLoads_fields : ∀ (n : Nat) (s : PFlowState C S),
    (applyLoads s n).oracle.loadsApplied = s.oracle.loadsApplied + n ∧
    (applyLoads s n).instances = s.instances ∧
    (applyLoads s n).nextSteps = s.nextSteps ∧
    (applyLoads s n).scheduledEvents = s.scheduledEvents ∧
    (applyLoads s n).activeEvents = s.activeEvents ∧
    (applyLoads s n).time = s.time ∧
    (applyLoads s n).prevStep = s.prevStep ∧
    (applyLoads s n).rngIdx = s.rngIdx ∧
    (applyLoads s n).loadgenInterval = s.loadgenInterval
  | 0, s => by simp [applyLoads]
  | n + 1, s => by
    have h := applyLoads_fields n
      { s with oracle := s.oracle.setLoads, loadGenPos := s.loadGenPos + 1 }
    simp only [applyLoads]
    refine ⟨?_, h.2.1, h.2.2.1, h.2.2.2.1, h.2.2.2.2.1, h.2.2.2.2.2.1,
      h.2.2.2.2.2.2.1, h.2.2.2.2.2.2.2.1, h.2.2.2.2.2.2.2.2⟩
    rw [h.1]
    show s.oracle.loadsApplied + 1 + n = s.oracle.loadsApplied + (n + 1)
    omega

theorem loadStage_fields (s : PFlowState C S) (time : ℤ) :
    (loadStage s time).1.oracle.loadsApplied =
      s.oracle.loadsApplied +
        (if time ≠ s.prevStep
          then (loadGenCount s.prevStep time s.loadgenInterval).toNat else 0) ∧
    (loadStage s time).1.instances = s.instances ∧
    (loadStage s time).1.nextSteps = s.nextSteps ∧
    (loadStage s time).1.scheduledEvents = s.scheduledEvents ∧
    (loadStage s time).1.activeEvents = s.activeEvents ∧
    (loadStage s time).1.time = s.time ∧
    (loadStage s time).1.prevStep = s.prevStep ∧
    (loadStage s time).1.rngIdx = s.rngIdx ∧
    (loadStage s time).1.loadgenInterval = s.loadgenInterval ∧
    (∀ a ∈ (loadStage s time).2, ∃ i, a = Action.loadApplied i) := by
  unfold loadStage
  split
  · have h := applyLoads_fields
      ((loadGenCount s.prevStep time s.loadgenInterval).toNat) s
    refine ⟨?_, h.2.1, h.2.2.1, h.2.2.2.1, h.2.2.2.2.1, h.2.2.2.2.2.1,
      h.2.2.2.2.2.2.1, h.2.2.2.2.2.2.2.1, h.2.2.2.2.2.2.2.2, ?_⟩
    · rw [h.1]
    · intro a ha
      simp only [List.mem_map] at ha
      obtain ⟨i, _, rfl⟩ := ha
      exact ⟨i, rfl⟩
  · exact ⟨by show s.oracle.loadsApplied = s.oracle.loadsApplied + 0; omega,
      rfl, rfl, rfl, rfl, rfl, rfl, rfl, rfl, by simp⟩

theorem setControl_ok_oracle {a : ActuatorSim} {o : Oracle C S} {v : PyVal}
    {t : ℤ} {r : ActuatorSim × Oracle C S} (h : a.setControl o v t = .ok r) :
    r.2.loadsApplied = o.loadsApplied := by
  simp only [ActuatorSim.setControl] at h
  split at h
  · exact absurd h (by simp)
  · split at h
    · exact absurd h (by simp)
    · obtain rfl := (Except.ok.inj h).symm
      show (if v ≠ PyVal.num 0 ∧ v ≠ PyVal.pynone
        then o.setTrafoTap a.elem v else o).loadsApplied = o.loadsApplied
      split <;> rfl

theorem applyControlTo_ok {time : ℤ} {v : PyVal} {o : Oracle C S}
    {inst : Instance C S} {r : Instance C S × Oracle C S}
    (h : applyControlTo time v o inst = .ok r) :
    r.2.loadsApplied = o.loadsApplied ∧ samplerPeriod inst = none := by
  cases inst with
  | actuator a =>
    simp only [applyControlTo] at h
    split at h
    · exact absurd h (by simp)
    · rename_i ao heq
      obtain rfl := (Except.ok.inj h).symm
      exact ⟨setControl_ok_oracle heq, rfl⟩
  | sensor d => simp [applyControlTo] at h
  | phasor d => simp [applyControlTo] at h
  | smartmeter d => simp [applyControlTo] at h
  | prober d => simp [applyControlTo] at h

theorem setInstance_keys (l : List (String × Instance C S)) (eid : String)
    (inst : Instance C S) :
    (setInstance l eid inst).map Prod.fst = l.map Prod.fst := by
  unfold setInstance
  rw [List.map_map]
  apply List.map_congr_left
  intro p _
  by_cases h : p.1 = eid
  · simp [Function.comp, h]
  · simp [Function.comp, h]

theorem setInstance_mem_other {l : List (String × Instance C S)} {e eid : String}
    {i inst : Instance C S} (hmem : (e, i) ∈ l) (hne : e ≠ eid) :
    (e, i) ∈ setInstance l eid inst := by
  unfold setInstance
  refine List.mem_map.mpr ⟨(e, i), hmem, ?_⟩
  simp [hne]

theorem lookup_eq_of_mem_nodup {β : Type} :
    ∀ (l : List (String × β)) (e : String) (i : β),
    (l.map Prod.fst).Nodup → (e, i) ∈ l → l.lookup e = some i
  | [], e, i, _, hm => by simp at hm
  | (k, b) :: rest, e, i, hnd, hm => by
    rw [List.map_cons, List.nodup_cons] at hnd
    rcases List.mem_cons.mp hm with h0 | hr
    · injection h0 with h1 h2
      subst h1; subst h2
      simp [List.lookup]
    · have hne : e ≠ k := by
        intro hcontra; subst hcontra
        exact hnd.1 (List.mem_map.mpr ⟨(e, i), hr, rfl⟩)
      have hbeq : (e == k) = false := by simp [hne]
      simp only [List.lookup, hbeq]
      exact lookup_eq_of_mem_nodup rest e i hnd.2 hr

/-- The control actions produced by non-null input values, one per
setControl call, in application order. -/
def nonNullControlActions (time : ℤ)
    (inputs : List (String × List (PyVal × ℤ))) : List Action :=
  inputs.flatMap (fun row =>
    (row.2.filter (fun vt => ¬(vt.1 = PyVal.noneStr ∨ vt.1 = PyVal.pynone))).map
      (fun vt => Action.controlSet row.1 vt.1 time))

theorem controlRow_ok (time : ℤ) (eid : String) :
    ∀ (vts : List (PyVal × ℤ)) (s s' : PFlowState C S) (tr : List Action),
    controlRow time eid s vts = .ok (s', tr) →
    s'.oracle.loadsApplied = s.oracle.loadsApplied ∧
    s'.nextSteps = s.nextSteps ∧
    s'.rngIdx = s.rngIdx ∧
    s'.instances.map Prod.fst = s.instances.map Prod.fst ∧
    ((s.instances.map Prod.fst).Nodup →
      ∀ e i, (e, i) ∈ s.instances → samplerPeriod i ≠ none → (e, i) ∈ s'.instances) ∧
    tr = (vts.filter (fun vt => ¬(vt.1 = PyVal.noneStr ∨ vt.1 = PyVal.pynone))).map
      (fun vt => Action.controlSet eid vt.1 time)
  | [], s, s', tr, h => by
    simp only [controlRow, Except.ok.injEq, Prod.mk.injEq] at h
    obtain ⟨rfl, rfl⟩ := h
    exact ⟨rfl, rfl, rfl, rfl, fun _ e i hm _ => hm, by simp⟩
  | (v, vt) :: rest, s, s', tr, h => by
    simp only [controlRow] at h
    by_cases hv : v = PyVal.noneStr ∨ v = PyVal.pynone
    · rw [if_pos hv] at h
      obtain ⟨h1, h2, h3, h4, h5, h6⟩ := controlRow_ok time eid rest s s' tr h
      refine ⟨h1, h2, h3, h4, h5, ?_⟩
      rw [h6]
      rcases hv with rfl | rfl <;> simp [List.filter_cons]
    · rw [if_neg hv] at h
      split at h
      · exact absurd h (by simp)
      · rename_i inst heq
        split at h
        · exact absurd h (by simp)
        · rename_i co heq2
          split at h
          · exact absurd h (by simp)
          · rename_i st heq3
            simp only [Except.ok.injEq, Prod.mk.injEq] at h
            obtain ⟨rfl, rfl⟩ := h
            obtain ⟨hco, hcp⟩ := applyControlTo_ok heq2
            obtain ⟨h1, h2, h3, h4, h5, h6⟩ := controlRow_ok time eid rest _ _ _ heq3
            refine ⟨by rw [h1]; exact hco, h2, h3,
              by rw [h4]; exact setInstance_keys .., ?_, ?_⟩
            · intro hnd e i hm hsp
              have hne : e ≠ eid := by
                intro hcontra; subst hcontra
                have hl := lookup_eq_of_mem_nodup s.instances e i hnd hm
                rw [heq] at hl
                obtain rfl := Option.some.inj hl
                exact hsp hcp
              refine h5 ?_ e i (setInstance_mem_other hm hne) hsp
              show ((setInstance s.instances eid co.1).map Prod.fst).Nodup
              rw [setInstance_keys]
              exact hnd
            · rw [h6]
              have hv1 : v ≠ PyVal.noneStr := fun hc => hv (Or.inl hc)
              have hv2 : v ≠ PyVal.pynone := fun hc => hv (Or.inr hc)
              simp [List.filter_cons, hv1, hv2]

theorem controlStage_ok (time : ℤ) :
    ∀ (inputs : List (String × List (PyVal × ℤ))) (s s' : PFlowState C S)
      (tr : List Action),
    controlStage time s inputs = .ok (s', tr) →
    s'.oracle.loadsApplied = s.oracle.loadsApplied ∧
    s'.nextSteps = s.nextSteps ∧
    s'.rngIdx = s.rngIdx ∧
    s'.instances.map Prod.fst = s.instances.map Prod.fst ∧
    ((s.instances.map Prod.fst).Nodup →
      ∀ e i, (e, i) ∈ s.instances → samplerPeriod i ≠ none → (e, i) ∈ s'.instances) ∧
    tr = nonNullControlActions time inputs
  | [], s, s', tr, h => by
    simp only [controlStage, Except.ok.injEq, Prod.mk.injEq] at h
    obtain ⟨rfl, rfl⟩ := h
    exact ⟨rfl, rfl, rfl, rfl, fun _ e i hm _ => hm,
      by simp [nonNullControlActions]⟩
  | (eid, vts) :: rest, s, s', tr, h => by
    simp only [controlStage] at h
    split at h
    · exact absurd h (by simp)
    · rename_i st heq
      split at h
      · exact absurd h (by simp)
      · rename_i st2 heq2
        simp only [Except.ok.injEq, Prod.mk.injEq] at h
        obtain ⟨rfl, rfl⟩ := h
        obtain ⟨a1, a2, a3, a4, a5, a6⟩ := controlRow_ok time eid vts s st.1 st.2 heq
        obtain ⟨b1, b2, b3, b4, b5, b6⟩ :=
          controlStage_ok time rest st.1 st2.1 st2.2 heq2
        refine ⟨by rw [b1, a1], by rw [b2, a2], by rw [b3, a3], by rw [b4, a4],
          ?_, ?_⟩
        · intro hnd e i hm hsp
          exact b5 (by rw [a4]; exact hnd) e i (a5 hnd e i hm hsp) hsp
        · rw [a6, b6]
          simp [nonNullControlActions]

theorem nonNullControlActions_all (time : ℤ)
    (inputs : List (String × List (PyVal × ℤ))) :
    ∀ a ∈ nonNullControlActions time inputs, ∃ e v t, a = Action.controlSet e v t := by
  intro a ha
  simp only [nonNullControlActions, List.mem_flatMap, List.mem_map] at ha
  obtain ⟨row, _, vt, _, rfl⟩ := ha
  exact ⟨_, _, _, rfl⟩

theorem controlsOf_nonNullControlActions (time : ℤ) :
    ∀ (inputs : List (String × List (PyVal × ℤ))),
    controlsOf (nonNullControlActions time inputs) = nonNullControls time inputs
  | [] => rfl
  | row :: rest => by
    have ih := controlsOf_nonNullControlActions time rest
    simp only [nonNullControlActions, nonNullControls, List.flatMap_cons,
      controlsOf, List.filterMap_append] at *
    rw [ih]
    congr 1
    rw [List.filterMap_map]
    exact List.filterMap_eq_map _ ▸ rfl

theorem instUpdate_ontick {ops : NumOps C S} {noise : Nat → C} {time : ℤ}
    {n0 : Nat} {o : Oracle C S} {inst : Instance C S} {ir : Instance C S × ℤ × Nat}
    {p : ℤ} (h : instUpdate ops noise time n0 o inst = .ok ir)
    (hp : samplerPeriod inst = some p) (ht : time % p = 0) :
    ir.2.1 = time + p := by
  cases inst with
  | sensor d =>
    simp only [samplerPeriod, Option.some.injEq] at hp
    subst hp
    simp only [instUpdate] at h
    split at h
    · exact absurd h (by simp)
    · rename_i dr heq
      rw [SensorSim.updateValues, if_pos ht] at heq
      obtain rfl := (Except.ok.inj heq).symm
      obtain rfl := (Except.ok.inj h).symm
      rfl
  | phasor d =>
    simp only [samplerPeriod, Option.some.injEq] at hp
    subst hp
    simp only [instUpdate] at h
    split at h
    · exact absurd h (by simp)
    · rename_i dr heq
      rw [PhasorSim.updateValues, if_pos ht] at heq
      obtain rfl := (Except.ok.inj heq).symm
      obtain rfl := (Except.ok.inj h).symm
      rfl
  | smartmeter d =>
    simp only [samplerPeriod, Option.some.injEq] at hp
    subst hp
    simp only [instUpdate] at h
    split at h
    · exact absurd h (by simp)
    · rename_i dr heq
      rw [SmartmeterSim.updateValues, if_pos ht] at heq
      obtain rfl := (Except.ok.inj heq).symm
      obtain rfl := (Except.ok.inj h).symm
      rfl
  | prober d => simp [samplerPeriod] at hp
  | actuator a => simp [samplerPeriod] at hp

theorem samplerStage_ok (ops : NumOps C S) (noise : Nat → C) (time : ℤ) :
    ∀ (l : List (String × Instance C S)) (s s' : PFlowState C S) (tr : List Action),
    samplerStage ops noise time s l = .ok (s', tr) →
    s'.oracle = s.oracle ∧
    (∀ x ∈ s.nextSteps, x ∈ s'.nextSteps) ∧
    (∀ a ∈ tr, ∃ e, a = Action.samplerUpdated e)
  | [], s, s', tr, h => by
    simp only [samplerStage, Except.ok.injEq, Prod.mk.injEq] at h
    obtain ⟨rfl, rfl⟩ := h
    exact ⟨rfl, fun x hx => hx, by simp⟩
  | (eid, inst) :: rest, s, s', tr, h => by
    simp only [samplerStage] at h
    split at h
    · split at h
      · exact absurd h (by simp)
      · rename_i ir heq
        split at h
        · exact absurd h (by simp)
        · rename_i st heq2
          simp only [Except.ok.injEq, Prod.mk.injEq] at h
          obtain ⟨rfl, rfl⟩ := h
          obtain ⟨i1, i2, i3⟩ := samplerStage_ok ops noise time rest _ _ _ heq2
          refine ⟨i1, ?_, ?_⟩
          · intro x hx
            apply i2
            show x ∈ (if ir.2.1 ≠ -1 then pqPut s.nextSteps ir.2.1 else s.nextSteps)
            split
            · exact (mem_pqPut ..).mpr (Or.inr hx)
            · exact hx
          · intro a ha
            rcases List.mem_cons.mp ha with rfl | ha
            · exact ⟨eid, rfl⟩
            · exact i3 a ha
    · exact samplerStage_ok ops noise time rest s s' tr h

theorem samplerStage_inserts (ops : NumOps C S) (noise : Nat → C) (time : ℤ) :
    ∀ (l : List (String × Instance C S)) (s s' : PFlowState C S) (tr : List Action),
    samplerStage ops noise time s l = .ok (s', tr) →
    ∀ eid inst p, (eid, inst) ∈ l → isSamplerName eid = true →
      samplerPeriod inst = some p → time % p = 0 → time + p ≠ -1 →
      (time + p) ∈ s'.nextSteps
  | [], s, s', tr, h => by
    intro eid inst p hm
    simp at hm
  | (eid0, inst0) :: rest, s, s', tr, h => by
    intro eid inst p hm hname hper htick hneq
    simp only [samplerStage] at h
    split at h
    · rename_i hn0
      split at h
      · exact absurd h (by simp)
      · rename_i ir heq
        split at h
        · exact absurd h (by simp)
        · rename_i st heq2
          simp only [Except.ok.injEq, Prod.mk.injEq] at h
          obtain ⟨rfl, rfl⟩ := h
          rcases List.mem_cons.mp hm with hm0 | hmr
          · injection hm0 with he hi
            subst he; subst hi
            have hr : ir.2.1 = time + p := instUpdate_ontick heq hper htick
            have hmem : (time + p) ∈
                (if ir.2.1 ≠ -1 then pqPut s.nextSteps ir.2.1 else s.nextSteps) := by
              rw [if_pos (by rw [hr]; exact hneq), hr]
              exact (mem_pqPut ..).mpr (Or.inl rfl)
            exact (samplerStage_ok ops noise time rest _ _ _ heq2).2.1 _ hmem
          · exact samplerStage_inserts ops noise time rest _ _ _ heq2
              eid inst p hmr hname hper htick hneq
    · rename_i hn0
      rcases List.mem_cons.mp hm with hm0 | hmr
      · injection hm0 with he hi
        subst he; subst hi
        exact absurd hname hn0
      · exact samplerStage_inserts ops noise time rest s s' tr h
          eid inst p hmr hname hper htick hneq

theorem proberStage_ok (ops : NumOps C S) (noise : Nat → C) (time : ℤ) :
    ∀ (l : List (String × Instance C S)) (s s' : PFlowState C S) (tr : List Action),
    proberStage ops noise time s l = .ok (s', tr) →
    s'.oracle = s.oracle ∧
    s'.nextSteps = s.nextSteps ∧
    (∀ a ∈ tr, ∃ e, a = Action.proberUpdated e)
  | [], s, s', tr, h => by
    simp only [proberStage, Except.ok.injEq, Prod.mk.injEq] at h
    obtain ⟨rfl, rfl⟩ := h
    exact ⟨rfl, rfl, by simp⟩
  | (eid, inst) :: rest, s, s', tr, h => by
    simp only [proberStage] at h
    split at h
    · split at h
      · exact absurd h (by simp)
      · rename_i ir heq
        split at h
        · exact absurd h (by simp)
        · rename_i st heq2
          simp only [Except.ok.injEq, Prod.mk.injEq] at h
          obtain ⟨rfl, rfl⟩ := h
          obtain ⟨i1, i2, i3⟩ := proberStage_ok ops noise time rest _ _ _ heq2
          refine ⟨i1, i2, ?_⟩
          intro a ha
          rcases List.mem_cons.mp ha with rfl | ha
          · exact ⟨eid, rfl⟩
          · exact i3 a ha
    · exact proberStage_ok ops noise time rest s s' tr h

theorem stepPre_ok {ops : NumOps C S} {noise : Nat → C} {s0 : PFlowState C S}
    {time : ℤ} {inputs : List (String × List (PyVal × ℤ))}
    {sp : PFlowState C S} {tr : List Action}
    (h : stepPre ops noise s0 time inputs = .ok (sp, tr)) :
    ∃ (c u p : PFlowState C S × List Action),
      controlStage time
        (eventStage (loadStage { s0 with prevStep := s0.time, time := time } time).1).1
        inputs = .ok c ∧
      samplerStage ops noise time c.1 c.1.instances = .ok u ∧
      proberStage ops noise time u.1 u.1.instances = .ok p ∧
      sp = p.1 ∧
      tr = (loadStage { s0 with prevStep := s0.time, time := time } time).2 ++
        (eventStage (loadStage { s0 with prevStep := s0.time, time := time } time).1).2 ++
        c.2 ++ u.2 ++ p.2 := by
  simp only [stepPre] at h
  split at h
  · exact absurd h (by simp)
  · rename_i c heq
    split at h
    · exact absurd h (by simp)
    · rename_i u heq2
      split at h
      · exact absurd h (by simp)
      · rename_i p heq3
        simp only [Except.ok.injEq, Prod.mk.injEq] at h
        obtain ⟨rfl, rfl⟩ := h
        exact ⟨c, u, p, heq, heq2, heq3, rfl, rfl⟩

theorem step_ok_parts {ops : NumOps C S} {noise : Nat → C} {s0 : PFlowState C S}
    {time : ℤ} {inputs : List (String × List (PyVal × ℤ))} {maxAdvance : ℤ}
    {out : PFlowState C S × ℤ × List Action}
    (h : PFlowSim.step ops noise s0 time inputs maxAdvance = .ok out) :
    ∃ pr qr, stepPre ops noise s0 time inputs = .ok pr ∧
      pqDrain time pr.1.nextSteps = some qr ∧
      out = ({ pr.1 with nextSteps := qr.1 }, qr.2, pr.2) := by
  simp only [PFlowSim.step] at h
  split at h
  · exact absurd h (by simp)
  · rename_i pr hpre
    split at h
    · exact absurd h (by simp)
    · rename_i qr hdrain
      exact ⟨pr, qr, hpre, hdrain, (Except.ok.inj h).symm⟩

/-!
Claim C1.
-/

/-- Claim C1: in a PFlowSim.step call, provided the pending-wake queue holds
at least one entry strictly beyond the input time when the drain runs, the
drain is well-defined (no queue[0] read hits an empty queue) and the
returned next wake time is strictly greater than the input time. The second
conjunct substantiates the claim's provision: every sampled device with a
due period re-inserts its next period time + p, a strictly future entry, on
every successful sample, so a sampled device guarantees the first conjunct's
hypothesis. -/
theorem step_next_wake_strictly_future (ops : NumOps C S) (noise : Nat → C)
    (s0 : PFlowState C S) (time : ℤ) (inputs : List (String × List (PyVal × ℤ)))
    (maxAdvance : ℤ) (q : List ℤ)
    (hq : preDrainQueue ops noise s0 time inputs = some q) :
    ((∃ x ∈ q, time < x) →
      ∃ r, stepNext ops noise s0 time inputs maxAdvance = some r ∧ time < r) ∧
    (∀ eid inst p, (s0.instances.map Prod.fst).Nodup → (eid, inst) ∈ s0.instances →
      isSamplerName eid = true → samplerPeriod inst = some p → time % p = 0 →
      0 ≤ time → 0 < p → (time + p) ∈ q ∧ time < time + p) := by
  unfold preDrainQueue at hq
  cases hpre : stepPre ops noise s0 time inputs with
  | error e => rw [hpre] at hq; simp [Except.toOption] at hq
  | ok pr =>
    rw [hpre] at hq
    simp only [Except.toOption, Option.map_some'] at hq
    have hq' : pr.1.nextSteps = q := Option.some.inj hq
    subst hq'
    constructor
    · intro hex
      obtain ⟨q', r, hdrain, hr⟩ := pqDrain_of_future _ _ hex
      have hstep : PFlowSim.step ops noise s0 time inputs maxAdvance
          = .ok ({ pr.1 with nextSteps := q' }, r, pr.2) := by
        unfold PFlowSim.step
        simp only [hpre, hdrain]
      refine ⟨r, ?_, hr⟩
      unfold stepNext
      rw [hstep]
      rfl
    · intro eid inst p hnd hmem hname hper htick htnn hppos
      refine ⟨?_, by omega⟩
      obtain ⟨c, u, pp, hc, hu, hp2, hsp, htr⟩ := stepPre_ok hpre
      have hL := loadStage_fields { s0 with prevStep := s0.time, time := time } time
      obtain ⟨c1, c2, c3, c4, c5, c6⟩ := controlStage_ok time inputs _ c.1 c.2 hc
      rw [eventStage_instances, hL.2.1] at c4 c5
      have hmemc : (eid, inst) ∈ c.1.instances :=
        c5 hnd eid inst hmem (by rw [hper]; simp)
      have hins := samplerStage_inserts ops noise time c.1.instances c.1 u.1 u.2 hu
        eid inst p hmemc hname hper htick (by omega)
      have hpq := (proberStage_ok ops noise time u.1.instances u.1 pp.1 pp.2 hp2).2.1
      rw [hsp, hpq]
      exact hins

/-- Witness for claim C1: on the concrete first step of cState at time 0,
the pre-drain queue is [5] and the returned next wake time is 5 > 0. -/
theorem step_next_wake_witness :
    ∃ r, stepNext intOps cNoise cState 0 [] 1 = some r ∧ (0 : ℤ) < r :=
  (step_next_wake_strictly_future intOps cNoise cState 0 [] 1 [5]
    (by decide)).1 (by decide)

/-!
Claim C5.
-/

/-- Claim C5: on a step at time t later than the previous call's time (the
interface delivers monotonically non-decreasing times), the number of
synthetic load updates applied to the oracle equals
floor(t/loadInterval) − floor(previousTime/loadInterval), except on the
first ever call (previousTime < 0), where exactly one load update is
applied. -/
theorem step_loadgen_count (ops : NumOps C S) (noise : Nat → C)
    (s0 : PFlowState C S) (time : ℤ) (inputs : List (String × List (PyVal × ℤ)))
    (maxAdvance : ℤ) (n : Nat)
    (hmono : s0.time < time) (hli : 0 < s0.loadgenInterval)
    (hok : stepLoadsApplied ops noise s0 time inputs maxAdvance = some n) :
    (n : ℤ) = s0.oracle.loadsApplied +
      (if s0.time < 0 then 1
        else time.fdiv s0.loadgenInterval - s0.time.fdiv s0.loadgenInterval) := by
  unfold stepLoadsApplied at hok
  cases hstep : PFlowSim.step ops noise s0 time inputs maxAdvance with
  | error e => rw [hstep] at hok; simp [Except.toOption] at hok
  | ok out =>
    rw [hstep] at hok
    simp only [Except.toOption, Option.map_some'] at hok
    have hok' : out.1.oracle.loadsApplied = n := Option.some.inj hok
    subst hok'
    obtain ⟨pr, qr, hpre, hdrain, hout⟩ := step_ok_parts hstep
    obtain ⟨c, u, pp, hc, hu, hp2, hsp, htr⟩ := stepPre_ok hpre
    have hL := loadStage_fields { s0 with prevStep := s0.time, time := time } time
    obtain ⟨c1, _, _, _, _, _⟩ := controlStage_ok time inputs _ c.1 c.2 hc
    have hun : u.1.oracle = c.1.oracle :=
      (samplerStage_ok ops noise time c.1.instances c.1 u.1 u.2 hu).1
    have hpn : pp.1.oracle = u.1.oracle :=
      (proberStage_ok ops noise time u.1.instances u.1 pp.1 pp.2 hp2).1
    have hev := eventStage_loadsApplied
      (loadStage { s0 with prevStep := s0.time, time := time } time).1
    have hcount : pp.1.oracle.loadsApplied = s0.oracle.loadsApplied +
        (loadGenCount s0.time time s0.loadgenInterval).toNat := by
      rw [hpn, hun, c1, hev, hL.1]
      have hne : time ≠ ({ s0 with prevStep := s0.time, time := time } :
          PFlowState C S).prevStep := by
        show time ≠ s0.time
        omega
      rw [if_pos hne]
    have harith : (((loadGenCount s0.time time s0.loadgenInterval).toNat : ℤ))
        = (if s0.time < 0 then 1
            else time.fdiv s0.loadgenInterval - s0.time.fdiv s0.loadgenInterval) := by
      unfold loadGenCount
      split
      · rfl
      · rename_i hnn
        rw [Int.toNat_of_nonneg]
        rw [Int.fdiv_eq_ediv _ (le_of_lt hli), Int.fdiv_eq_ediv _ (le_of_lt hli)]
        have hmon := Int.ediv_le_ediv hli (le_of_lt hmono)
        omega
    have hfinal : out.1.oracle.loadsApplied = s0.oracle.loadsApplied +
        (loadGenCount s0.time time s0.loadgenInterval).toNat := by
      rw [hout]
      show pr.1.oracle.loadsApplied = _
      rw [hsp]
      exact hcount
    rw [hfinal]
    push_cast
    rw [harith]

/-- Witness for claim C5: stepping cState2 (previous time 2, load interval
2) at time 7 applies floor(7/2) − floor(2/2) = 2 load updates. -/
theorem step_loadgen_count_witness :
    ((2 : Nat) : ℤ) = cState2.oracle.loadsApplied +
      (if cState2.time < 0 then 1
        else (7 : ℤ).fdiv cState2.loadgenInterval -
          cState2.time.fdiv cState2.loadgenInterval) :=
  step_loadgen_count intOps cNoise cState2 7 [] 1 2 (by decide) (by decide)
    (by decide)

theorem firedOf_append (l1 l2 : List Action) :
    firedOf (l1 ++ l2) = firedOf l1 ++ firedOf l2 :=
  List.filterMap_append l1 l2 _

theorem controlsOf_append (l1 l2 : List Action) :
    controlsOf (l1 ++ l2) = controlsOf l1 ++ controlsOf l2 :=
  List.filterMap_append l1 l2 _

theorem firedOf_map_eventFired : ∀ (l : List SchedEvent),
    firedOf (l.map .eventFired) = l
  | [] => rfl
  | e :: rest => by
    simp only [List.map_cons, firedOf, List.filterMap_cons]
    exact congrArg (List.cons e) (firedOf_map_eventFired rest)

theorem firedOf_eq_nil {l : List Action}
    (h : ∀ a ∈ l, ∀ e, a ≠ Action.eventFired e) : firedOf l = [] := by
  unfold firedOf
  rw [List.filterMap_eq_nil_iff]
  intro a ha
  cases a with
  | eventFired e => exact absurd rfl (h _ ha e)
  | loadApplied i => rfl
  | controlSet x y z => rfl
  | samplerUpdated x => rfl
  | proberUpdated x => rfl

theorem controlsOf_eq_nil {l : List Action}
    (h : ∀ a ∈ l, ∀ e v t, a ≠ Action.controlSet e v t) : controlsOf l = [] := by
  unfold controlsOf
  rw [List.filterMap_eq_nil_iff]
  intro a ha
  cases a with
  | controlSet x y z => exact absurd rfl (h _ ha x y z)
  | loadApplied i => rfl
  | eventFired e => rfl
  | samplerUpdated x => rfl
  | proberUpdated x => rfl

/-!
Claim C3.
-/

/-- Claim C3: a step called with a time equal to the previous call's time
applies no load-generation cycle to the oracle (the synthetic-load state of
the oracle is unchanged by that part of the step), while all due
disturbance-scheduler events are still fired and all actuator inputs with a
present, non-null value are still applied via setControl on that call. -/
theorem step_duplicate_time_frame (ops : NumOps C S) (noise : Nat → C)
    (s0 : PFlowState C S) (inputs : List (String × List (PyVal × ℤ)))
    (maxAdvance : ℤ) (time : ℤ) (htime : time = s0.time) :
    (∀ n, stepLoadsApplied ops noise s0 time inputs maxAdvance = some n →
      n = s0.oracle.loadsApplied) ∧
    (∀ tr, stepTrace ops noise s0 time inputs maxAdvance = some tr →
      firedOf tr = s0.scheduledEvents.filter (fun e => decide (e.time ≤ time)) ∧
      controlsOf tr = nonNullControls time inputs) := by
  have hnn : ¬ (time ≠ ({ s0 with prevStep := s0.time, time := time } :
      PFlowState C S).prevStep) := by
    show ¬ (time ≠ s0.time)
    simp [htime]
  constructor
  · intro n hok
    unfold stepLoadsApplied at hok
    cases hstep : PFlowSim.step ops noise s0 time inputs maxAdvance with
    | error e => rw [hstep] at hok; simp [Except.toOption] at hok
    | ok out =>
      rw [hstep] at hok
      simp only [Except.toOption, Option.map_some'] at hok
      have hok' : out.1.oracle.loadsApplied = n := Option.some.inj hok
      obtain ⟨pr, qr, hpre, hdrain, hout⟩ := step_ok_parts hstep
      obtain ⟨c, u, pp, hc, hu, hp2, hsp, htrp⟩ := stepPre_ok hpre
      have hL := loadStage_fields { s0 with prevStep := s0.time, time := time } time
      obtain ⟨c1, _, _, _, _, _⟩ := controlStage_ok time inputs _ c.1 c.2 hc
      have hun := (samplerStage_ok ops noise time c.1.instances c.1 u.1 u.2 hu).1
      have hpn := (proberStage_ok ops noise time u.1.instances u.1 pp.1 pp.2 hp2).1
      rw [← hok', hout]
      show pr.1.oracle.loadsApplied = s0.oracle.loadsApplied
      rw [hsp, hpn, hun, c1, eventStage_loadsApplied, hL.1, if_neg hnn]
      exact Nat.add_zero _
  · intro tr htrh
    unfold stepTrace at htrh
    cases hstep : PFlowSim.step ops noise s0 time inputs maxAdvance with
    | error e => rw [hstep] at htrh; simp [Except.toOption] at htrh
    | ok out =>
      rw [hstep] at htrh
      simp only [Except.toOption, Option.map_some'] at htrh
      have htr0 : out.2.2 = tr := Option.some.inj htrh
      obtain ⟨pr, qr, hpre, hdrain, hout⟩ := step_ok_parts hstep
      obtain ⟨c, u, pp, hc, hu, hp2, hsp, htrp⟩ := stepPre_ok hpre
      have htrEq : tr =
          (loadStage { s0 with prevStep := s0.time, time := time } time).2 ++
          (eventStage
            (loadStage { s0 with prevStep := s0.time, time := time } time).1).2 ++
          c.2 ++ u.2 ++ pp.2 := by
        rw [← htr0, hout]
        exact htrp
      have hL := loadStage_fields { s0 with prevStep := s0.time, time := time } time
      have hL2 : (loadStage { s0 with prevStep := s0.time, time := time } time).2
          = [] := by
        unfold loadStage
        rw [if_neg hnn]
      have ht : (loadStage { s0 with prevStep := s0.time, time := time } time).1.time
          = time := hL.2.2.2.2.2.1
      have hE2 : (eventStage
          (loadStage { s0 with prevStep := s0.time, time := time } time).1).2
          = (s0.scheduledEvents.filter (fun e => decide (e.time ≤ time))).map
              .eventFired := by
        rw [eventStage_trace, hL.2.2.2.1]
        simp only [ht]
      obtain ⟨_, _, _, _, _, c6⟩ := controlStage_ok time inputs _ c.1 c.2 hc
      have hu3 := (samplerStage_ok ops noise time c.1.instances c.1 u.1 u.2 hu).2.2
      have hp3 := (proberStage_ok ops noise time u.1.instances u.1 pp.1 pp.2 hp2).2.2
      have hcnil : firedOf c.2 = [] := firedOf_eq_nil (by
        intro a ha e
        rw [c6] at ha
        obtain ⟨e', v', t', rfl⟩ := nonNullControlActions_all time inputs a ha
        simp)
      have hunil : firedOf u.2 = [] := firedOf_eq_nil (by
        intro a ha e
        obtain ⟨e', rfl⟩ := hu3 a ha
        simp)
      have hpnil : firedOf pp.2 = [] := firedOf_eq_nil (by
        intro a ha e
        obtain ⟨e', rfl⟩ := hp3 a ha
        simp)
      constructor
      · rw [htrEq, hL2, hE2]
        simp only [List.nil_append]
        rw [firedOf_append, firedOf_append, firedOf_append,
          firedOf_map_eventFired, hcnil, hunil, hpnil]
        simp
      · rw [htrEq, hL2, hE2]
        simp only [List.nil_append]
        rw [controlsOf_append, controlsOf_append, controlsOf_append]
        have hen : controlsOf
            ((s0.scheduledEvents.filter (fun e => decide (e.time ≤ time))).map
              .eventFired) = [] := controlsOf_eq_nil (by
          intro a ha e v t
          obtain ⟨x, _, rfl⟩ := List.mem_map.mp ha
          simp)
        have hcu : controlsOf u.2 = [] := controlsOf_eq_nil (by
          intro a ha e v t
          obtain ⟨e', rfl⟩ := hu3 a ha
          simp)
        have hcp : controlsOf pp.2 = [] := controlsOf_eq_nil (by
          intro a ha e v t
          obtain ⟨e', rfl⟩ := hp3 a ha
          simp)
        rw [hen, hcu, hcp, c6, controlsOf_nonNullControlActions]
        simp

/-- Witness for claim C3: stepping cState3 again at its previous time 2 with
one non-null and one null actuator input leaves the synthetic-load counter
unchanged, fires the due event, and applies the non-null control. -/
theorem step_duplicate_time_frame_witness :
    (∀ n, stepLoadsApplied intOps cNoise cState3 2 cInputs 1 = some n →
      n = cState3.oracle.loadsApplied) ∧
    (∀ tr, stepTrace intOps cNoise cState3 2 cInputs 1 = some tr →
      firedOf tr = cState3.scheduledEvents.filter (fun e => decide (e.time ≤ 2)) ∧
      controlsOf tr = nonNullControls 2 cInputs) :=
  step_duplicate_time_frame intOps cNoise cState3 cInputs 1 2 (by decide)

/-!
Claim C8.
-/

/-- Claim C8: within a single PFlowSim.step call, every scheduled
disturbance event due at the current time fires before any
Sensor/Phasor/SmartMeter updateValues call of that tick: in the step trace,
every eventFired entry strictly precedes every samplerUpdated entry. -/
theorem events_fire_before_sampling (ops : NumOps C S) (noise : Nat → C)
    (s0 : PFlowState C S) (time : ℤ) (inputs : List (String × List (PyVal × ℤ)))
    (maxAdvance : ℤ) (tr : List Action) (i j : Nat) (ev : SchedEvent)
    (eid : String)
    (htr : stepTrace ops noise s0 time inputs maxAdvance = some tr)
    (hi : tr.get? i = some (.eventFired ev))
    (hj : tr.get? j = some (.samplerUpdated eid)) : i < j := by
  unfold stepTrace at htr
  cases hstep : PFlowSim.step ops noise s0 time inputs maxAdvance with
  | error e => rw [hstep] at htr; simp [Except.toOption] at htr
  | ok out =>
    rw [hstep] at htr
    simp only [Except.toOption, Option.map_some'] at htr
    have htr0 : out.2.2 = tr := Option.some.inj htr
    obtain ⟨pr, qr, hpre, hdrain, hout⟩ := step_ok_parts hstep
    obtain ⟨c, u, pp, hc, hu, hp2, hsp, htrp⟩ := stepPre_ok hpre
    have hL := loadStage_fields { s0 with prevStep := s0.time, time := time } time
    obtain ⟨_, _, _, _, _, c6⟩ := controlStage_ok time inputs _ c.1 c.2 hc
    have hu3 := (samplerStage_ok ops noise time c.1.instances c.1 u.1 u.2 hu).2.2
    have hp3 := (proberStage_ok ops noise time u.1.instances u.1 pp.1 pp.2 hp2).2.2
    have htrEq : tr =
        ((loadStage { s0 with prevStep := s0.time, time := time } time).2 ++
          (eventStage
            (loadStage { s0 with prevStep := s0.time, time := time } time).1).2 ++
          c.2) ++ (u.2 ++ pp.2) := by
      rw [← htr0, hout]
      show pr.2 = _
      rw [htrp]
      simp [List.append_assoc]
    have hPfacts : ∀ a ∈
        ((loadStage { s0 with prevStep := s0.time, time := time } time).2 ++
          (eventStage
            (loadStage { s0 with prevStep := s0.time, time := time } time).1).2 ++
          c.2), ∀ e, a ≠ Action.samplerUpdated e := by
      intro a ha e
      rcases List.mem_append.mp ha with ha' | hc2
      · rcases List.mem_append.mp ha' with hl | he
        · obtain ⟨ix, rfl⟩ := hL.2.2.2.2.2.2.2.2.2 a hl
          simp
        · rw [eventStage_trace] at he
          obtain ⟨x, _, rfl⟩ := List.mem_map.mp he
          simp
      · rw [c6] at hc2
        obtain ⟨e', v', t', rfl⟩ := nonNullControlActions_all time inputs a hc2
        simp
    have hQfacts : ∀ a ∈ (u.2 ++ pp.2), ∀ e, a ≠ Action.eventFired e := by
      intro a ha e
      rcases List.mem_append.mp ha with hU | hP
      · obtain ⟨e', rfl⟩ := hu3 a hU
        simp
      · obtain ⟨e', rfl⟩ := hp3 a hP
        simp
    rw [htrEq] at hi hj
    have hiP : i <
        ((loadStage { s0 with prevStep := s0.time, time := time } time).2 ++
          (eventStage
            (loadStage { s0 with prevStep := s0.time, time := time } time).1).2 ++
          c.2).length := by
      by_contra hge
      push_neg at hge
      rw [List.get?_append_right hge] at hi
      exact absurd rfl (hQfacts _ (List.get?_mem hi) ev)
    have hjP :
        ((loadStage { s0 with prevStep := s0.time, time := time } time).2 ++
          (eventStage
            (loadStage { s0 with prevStep := s0.time, time := time } time).1).2 ++
          c.2).length ≤ j := by
      by_contra hlt
      push_neg at hlt
      rw [List.get?_append hlt] at hj
      exact absurd rfl (hPfacts _ (List.get?_mem hj) eid)
    omega

/-- Witness for claim C8: in the concrete first step of cState at time 0,
the due fault event fires at trace position 1 and the sensor update is at
trace position 2, so 1 < 2. -/
theorem events_fire_before_sampling_witness : (1 : Nat) < 2 :=
  events_fire_before_sampling intOps cNoise cState 0 [] 1
    [Action.loadApplied 0,
     Action.eventFired ⟨0, .applyFault, "6054-6110", "start"⟩,
     Action.samplerUpdated "Sensor_1"] 1 2
    ⟨0, .applyFault, "6054-6110", "start"⟩ "Sensor_1"
    (by decide) (by decide) (by decide)

end RIDE
